import Mathlib

/-!
Verification development for the secret-store core of the iden3js identity
toolkit. The definitions embed, in order:

* symbolic models of the external cryptographic primitives and the
  key/value persistence layer (the `kc-utils`, `constants` and `utils`
  modules are consumed through the fixed primitive interface of the spec
  and are modelled from it, as marked on each definition);
* the `Db` persistence class (`src/db.js`);
* the `LocalStorageContainer` key container
  (`src/key-container/local-storage-container.js`), with JavaScript
  exceptions made explicit in an `Except` result and the mutated
  `localStorage` state returned alongside (writes performed before an
  exception stay visible, as they do in JavaScript);
* a discrete-time model of the `unlock`/`lock` auto-lock timer.

Theorems about the claims follow the definitions.
-/

/-- List-level "is prefix of" used for all key comparisons (Boolean, so every
store operation stays executable). `lstarts pat s` holds when `pat` is a
prefix of `s`. -/
def lstarts : List Char → List Char → Bool
  | [], _ => true
  | _ :: _, [] => false
  | a :: as, b :: bs => a == b && lstarts as bs

/-- Substring test, the model of JavaScript `String.indexOf(pat) !== -1`. -/
def hasSub (pat : List Char) : List Char → Bool
  | [] => pat.isEmpty
  | c :: rest => lstarts pat (c :: rest) || hasSub pat rest

/-- JavaScript `Array.prototype.toString` for an array of strings: elements
joined with a comma. The container passes the result of `listKeys` (an
array) directly to `db.get`, which coerces it to a string this way. -/
def joinComma : List String → String
  | [] => ""
  | [a] => a
  | a :: b :: rest => a ++ ("," ++ joinComma (b :: rest))

/-- Number of occurrences of a character in a list (used to separate
symbolic derivation strings that differ in one path index). -/
def ccount (ch : Char) : List Char → Nat
  | [] => 0
  | a :: r => (if a = ch then 1 else 0) + ccount ch r

/-- Error taxonomy. `notUnlocked` and `notFound` are the spec names for the
guard failure and the missing-entry failure; the remaining constructors
model the JavaScript exceptions the code can raise (`decryptionFailure`
from `kcUtils.decrypt`, `rangeError` from `Buffer.writeUInt32BE` /
`readUInt32BE`, `typeError` from dereferencing `undefined`, `parseError`
from `JSON.parse`, `persistenceFailure` from a throwing
`localStorage.setItem`). -/
inductive Jerr where
  | notUnlocked
  | notFound
  | decryptionFailure
  | rangeError
  | typeError
  | parseError
  | persistenceFailure
deriving DecidableEq, Repr

/-- Plaintexts handled by the symmetric cipher. `str` is an ordinary string;
`num4` stands for the hex rendering of a 4-byte big-endian buffer holding a
counter (the only two plaintext shapes the container ever encrypts). -/
inductive Plain where
  | str (s : String)
  | num4 (n : Nat)
deriving DecidableEq, Repr

/-- Modelled from the spec: a ciphertext produced by `kcUtils.encrypt`.
`decrypt` recovers the plaintext exactly when called with the same key and
fails with `DecryptionFailure` otherwise (spec section 6: "fails with
DecryptionFailure on wrong key/corrupt input"). -/
structure Enc where
  encKey : String
  plain : Plain
deriving DecidableEq, Repr

/-- A value stored in `localStorage`. `enc` is a bare encrypted string
(master seed, per-key entries); `keyRec` is the JSON record
`JSON.stringify (keySeedEncrypted, pathKeySeedEncrypted)` written under the
`keySeed` label. -/
inductive DbVal where
  | enc (c : Enc)
  | keyRec (keySeedEncrypted pathKeySeedEncrypted : Enc)
deriving DecidableEq, Repr

/-- The JSON payload carried by a whole-store export blob: a proper object
of entries, some other well-formed JSON value (JavaScript iterates no
properties over it), or text that is not JSON at all (`JSON.parse`
throws). -/
inductive Payload where
  | obj (entries : List (String × DbVal))
  | nonObj (n : Nat)
  | bad
deriving DecidableEq, Repr

/-- Modelled from the spec: the ciphertext returned by `Db.export`, an
encryption of one structured blob. -/
structure EncBlob where
  bKey : String
  payload : Payload
deriving DecidableEq, Repr

/-- The signature envelope built by `kcUtils.concatSignature`:
message, message hash and the `v`, `r`, `s` signature parts. -/
structure SigEnv where
  message : String
  messageHash : String
  v : String
  r : String
  s : String
deriving DecidableEq, Repr

/-- Result of `sign`: either the literal string returned when the container
is locked, or a signature envelope. -/
inductive SignResult where
  | blocked
  | sigObj (e : SigEnv)
deriving DecidableEq, Repr

/-- Modelled from the spec: `kcUtils.passToKey`, key stretching of a
passphrase with a salt. Symbolic and always non-empty, so `unlock` always
leaves the container in the Unlocked state. -/
def passToKey (pass salt : String) : String :=
  "stretch(" ++ pass ++ ("," ++ (salt ++ ")"))

/-- Modelled from the spec: `kcUtils.encrypt`, symbolic symmetric
encryption tagging the plaintext with the key. -/
def encrypt (key : String) (m : Plain) : Enc := ⟨key, m⟩

/-- Modelled from the spec: `kcUtils.decrypt` on a ciphertext value;
fails with `DecryptionFailure` on a wrong key. -/
def decrypt (key : String) (c : Enc) : Except Jerr Plain :=
  if c.encKey = key then .ok c.plain else .error .decryptionFailure

/-- Modelled from the spec: `kcUtils.decrypt` applied to whatever was read
from the store: a missing entry (JavaScript `null`) or a stored JSON record
is corrupt input and fails with `DecryptionFailure`; a stored ciphertext is
decrypted. -/
def decryptItem (key : String) (v : Option DbVal) : Except Jerr Plain :=
  match v with
  | none => .error .decryptionFailure
  | some (.enc c) => decrypt key c
  | some (.keyRec _ _) => .error .decryptionFailure

/-- The string a decrypted plaintext denotes (a `num4` plaintext denotes
the hex rendering of the 4-byte counter buffer). -/
def plainToStr : Plain → String
  | .str s => s
  | .num4 n => toString n

/-- Modelled from the spec: `utils.hexToBytes` followed by
`Buffer.readUInt32BE` on the decrypted path-counter hex string. Reading a
plaintext that is not a 4-byte counter rendering fails (out-of-range
read). -/
def readUInt32BE : Plain → Except Jerr Nat
  | .num4 n => .ok n
  | .str _ => .error .rangeError

/-- `Buffer.alloc(4).writeUInt32BE v` rendered as hex: succeeds exactly for
values below 2^32 and raises a range error otherwise (Node bounds-checks
the write). -/
def writeUInt32BE (n : Nat) : Except Jerr Plain :=
  if n < 4294967296 then .ok (.num4 n) else .error .rangeError

/-- Modelled from the spec: `bip39.entropyToMnemonic`, symbolic re-encoding
of entropy as a mnemonic. -/
def entropyToMnemonic (e : String) : String := "mnemonic:" ++ e

/-- Modelled from the spec: `bip39.validateMnemonic`; accepts exactly the
strings produced by the symbolic mnemonic encoder. -/
def validateMnemonic (s : String) : Bool := lstarts "mnemonic:".data s.data

/-- Modelled from the spec: `hdkey.fromMasterSeed`, symbolic root node of a
derivation hierarchy. -/
def fromMasterSeed (seed : String) : String := "root(" ++ (seed ++ ")")

/-- Modelled from the spec: `node.derive(path)`, symbolic child node. -/
def hdDerive (node path : String) : String := node ++ ("|" ++ path)

/-- Modelled from the spec: the `_privateKey` of a derived node. -/
def hdPriv (node : String) : String := "priv(" ++ (node ++ ")")

/-- Modelled from the spec: the `_publicKey` of a derived node. -/
def hdPub (node : String) : String := "pub(" ++ (node ++ ")")

/-- Modelled from the spec: `ethUtil.privateToAddress`. -/
def privateToAddress (priv : String) : String := "addr(" ++ (priv ++ ")")

/-- Modelled from the spec: `utils.bytesToHex`; byte strings are already
carried as their hex rendering, so the coding map is the identity. -/
def bytesToHex (b : String) : String := b

/-- Modelled from the spec: `utils.hexToBytes`, inverse of `bytesToHex`. -/
def hexToBytes (h : String) : String := h

/-- Modelled from the spec: `ethUtil.toBuffer` on the message argument. -/
def toBufferS (data : String) : String := data

/-- Modelled from the spec: `ethUtil.hashPersonalMessage`, the fixed
length-prefixed personal-message hash. -/
def hashPersonalMessage (m : String) : String := "pmh(" ++ (m ++ ")")

/-- Modelled from the spec: the `v` part of `ethUtil.ecsign`. -/
def sigV (hash priv : String) : String := "sv(" ++ hash ++ ("," ++ (priv ++ ")"))

/-- Modelled from the spec: the `r` part of `ethUtil.ecsign`. -/
def sigR (hash priv : String) : String := "sr(" ++ hash ++ ("," ++ (priv ++ ")"))

/-- Modelled from the spec: the `s` part of `ethUtil.ecsign`. -/
def sigS (hash priv : String) : String := "ss(" ++ hash ++ ("," ++ (priv ++ ")"))

/-- `kcUtils.concatSignature`: packs message, hash and signature parts into
the envelope a verifier can recover the address from. -/
def concatSignature (message messageHash v r s : String) : SigEnv :=
  ⟨message, messageHash, v, r, s⟩

/-- Modelled from the spec: `CONSTANTS.DBPREFIX`, the namespace added by
`Db` in front of every `localStorage` key. -/
def dbPref : String := "d-"

/-- Modelled from the spec: `CONSTANTS.KCPREFIX`, the namespace added by
the key container in front of every key it hands to `Db`. -/
def kcPref : String := "k-"

/-- Modelled from the spec: `CONSTANTS.IDRECOVERYPREFIX`, the extra
namespace for recovery-key entries. -/
def recPref : String := "r-"

/-- The `localStorage` contents: an association list in insertion order
(the order `localStorage.key(i)` enumerates). -/
abbrev LStore := List (String × DbVal)

/-- Whether a full `localStorage` key is present. -/
def hasKey (k : String) : LStore → Bool
  | [] => false
  | (k1, _) :: r => if k1 = k then true else hasKey k r

/-- Replace the value stored under a key, keeping its position. -/
def lsReplace (k : String) (v : DbVal) : LStore → LStore
  | [] => []
  | (k1, w) :: r => if k1 = k then (k, v) :: lsReplace k v r else (k1, w) :: lsReplace k v r

/-- `localStorage.setItem`: replace in place when the key exists, append
otherwise. -/
def lsSet (k : String) (v : DbVal) (ls : LStore) : LStore :=
  if hasKey k ls then lsReplace k v ls
  else ls ++ [(k, v)]

/-- `localStorage.getItem`: first value stored under the key, `none` for
JavaScript `null`. -/
def lsGet (k : String) : LStore → Option DbVal
  | [] => none
  | (k1, v) :: r => if k1 = k then some v else lsGet k r

/-- The set of full `localStorage` keys whose `setItem` call throws (models
a persistence failure such as an exceeded quota); empty when persistence is
reliable. -/
abbrev FailSpec := List String

/-- `Db.insert` (src/db.js): prefix the key with `DBPREFIX` and `setItem`.
Throws when the full key is in the failure specification, leaving the
store unchanged. -/
def dbInsertF (fs : FailSpec) (k : String) (v : DbVal) (ls : LStore) :
    Except Jerr Unit × LStore :=
  if (dbPref ++ k) ∈ fs then (.error .persistenceFailure, ls)
  else (.ok (), lsSet (dbPref ++ k) v ls)

/-- `Db.get` (src/db.js): `getItem` of the prefixed key. -/
def dbGet (k : String) (ls : LStore) : Option DbVal :=
  lsGet (dbPref ++ k) ls

/-- `Db.deleteAll` (src/db.js): `localStorage.clear()`. -/
def dbDeleteAll (_ : LStore) : LStore := []

/-- Modelled from the spec: `PersistentStore.listKeys(prefix)`; the `Db`
method is consumed by the container but absent from src/db.js. It returns,
in store order, every key of the namespace that extends the given prefix,
with the `DBPREFIX` namespace stripped (the container re-adds it through
`db.get`). -/
def nsMatch (p k : String) : Bool := lstarts (dbPref ++ p).data k.data

/-- Strip the `DBPREFIX` namespace from a listed key. -/
def nsStrip (k : String) : String := String.mk (k.data.drop dbPref.data.length)

/-- The keys of the namespace extending the prefix, in store order. -/
def dbListKeys (p : String) (ls : LStore) : List String :=
  ((ls.map Prod.fst).filter (nsMatch p)).map nsStrip

/-- Container state: the ephemeral encryption key, the empty string when
locked (JavaScript falsiness of `''`). -/
structure KC where
  encryptionKey : String
deriving DecidableEq, Repr

/-- `LocalStorageContainer.isUnlock`. -/
def isUnlock (kc : KC) : Bool := kc.encryptionKey ≠ ""

/-- The derivation path `m/44'/60'/0'/<profile>/<index>` built by
`generateKeysFromKeyPath` and `generateSingleKey`. -/
def pathOf (keyProfilePath keyPath : Nat) : String :=
  "m/44\x27/60\x27/0\x27/" ++ (toString keyProfilePath ++ ("/" ++ toString keyPath))

/-- `LocalStorageContainer.getMasterSeed` called with the default `pass`
argument (the current encryption key): look the label up, decrypt inside
`try`/`catch` and return `undefined` on any failure. -/
def getMasterSeed (kc : KC) (ls : LStore) : Option String :=
  if isUnlock kc then
    let seedKey := dbListKeys (kcPref ++ "masterSeed") ls
    if seedKey.length = 0 then none
    else
      let seedEncrypted := dbGet (joinComma seedKey) ls
      match decryptItem kc.encryptionKey seedEncrypted with
      | .error _ => none
      | .ok m => some (plainToStr m)
  else none

/-- `LocalStorageContainer.generateKeySeed`: derive the key seed from the
master seed through the identity-master path, encode it as a mnemonic,
pair it with a zero 4-byte path counter, encrypt both and persist them as
one record. A missing master seed (`undefined`) makes
`hdkey.fromMasterSeed` throw. -/
def generateKeySeed (fs : FailSpec) (kc : KC) (ls : LStore)
    (masterSeed : Option String) : Except Jerr Bool × LStore :=
  if isUnlock kc then
    match masterSeed with
    | none => (.error .typeError, ls)
    | some ms =>
      let root := fromMasterSeed ms
      let nodeId := hdDerive root "m/44\x27/60\x27/0\x27"
      let privKey := hdPriv nodeId
      let keySeed := entropyToMnemonic privKey
      let keySeedEncrypted := encrypt kc.encryptionKey (.str keySeed)
      match writeUInt32BE 0 with
      | .error e => (.error e, ls)
      | .ok pathKey =>
        let pathKeySeedEncrypted := encrypt kc.encryptionKey pathKey
        match dbInsertF fs (kcPref ++ "keySeed") (.keyRec keySeedEncrypted pathKeySeedEncrypted) ls with
        | (.error e, ls1) => (.error e, ls1)
        | (.ok _, ls1) => (.ok true, ls1)
  else (.ok false, ls)

/-- `LocalStorageContainer.getKeySeed`: list the `keySeed` label, read the
record (the listed keys array is coerced to a string by `db.get`), parse
the JSON record, decrypt both fields and read the 4-byte counter. No
`try`/`catch`: decryption and read failures propagate. -/
def getKeySeed (kc : KC) (ls : LStore) : Except Jerr (Option (String × Nat)) :=
  if isUnlock kc then
    let keySeedDb := dbListKeys (kcPref ++ "keySeed") ls
    if keySeedDb.length = 0 then .ok none
    else
      match dbGet (joinComma keySeedDb) ls with
      | some (.keyRec keySeedEncrypted pathKeySeedEncrypted) =>
        match decrypt kc.encryptionKey keySeedEncrypted with
        | .error e => .error e
        | .ok ksPlain =>
          match decrypt kc.encryptionKey pathKeySeedEncrypted with
          | .error e => .error e
          | .ok pkPlain =>
            match readUInt32BE pkPlain with
            | .error e => .error e
            | .ok pathKey => .ok (some (plainToStr ksPlain, pathKey))
      | some (.enc _) => .error .parseError
      | none => .error .typeError
  else .ok none

/-- `LocalStorageContainer.increaseKeyPath`: reload the record, increment
the counter by one, rewrite the 4-byte buffer, re-encrypt and re-persist
both fields. -/
def increaseKeyPath (fs : FailSpec) (kc : KC) (ls : LStore) :
    Except Jerr Bool × LStore :=
  if isUnlock kc then
    match getKeySeed kc ls with
    | .error e => (.error e, ls)
    | .ok none => (.error .typeError, ls)
    | .ok (some (keySeed, pathKey)) =>
      let increasePathKey := pathKey + 1
      match writeUInt32BE increasePathKey with
      | .error e => (.error e, ls)
      | .ok pathKeyDb =>
        let keySeedEncrypted := encrypt kc.encryptionKey (.str keySeed)
        let pathKeySeedEncrypted := encrypt kc.encryptionKey pathKeyDb
        match dbInsertF fs (kcPref ++ "keySeed") (.keyRec keySeedEncrypted pathKeySeedEncrypted) ls with
        | (.error e, ls1) => (.error e, ls1)
        | (.ok _, ls1) => (.ok true, ls1)
  else (.ok false, ls)

/-- The loop body of `generateKeysFromKeyPath`: derive each index, persist
the encrypted private key under the address, and for index 0 additionally
under the raw public key; an insertion failure propagates at once,
keeping the writes already made. -/
def genLoop (fs : FailSpec) (key root : String) (pathProfile : Nat) :
    List Nat → List String → LStore → Except Jerr (List String) × LStore
  | [], keys, ls => (.ok keys, ls)
  | i :: rest, keys, ls =>
    let addrNode := hdDerive root (pathOf pathProfile i)
    let privK := hdPriv addrNode
    let address := privateToAddress privK
    let addressHex := bytesToHex address
    let privKHex := bytesToHex privK
    let privKHexEncrypted := encrypt key (.str privKHex)
    let keys1 := keys ++ [addressHex]
    match dbInsertF fs (kcPref ++ addressHex) (.enc privKHexEncrypted) ls with
    | (.error e, ls1) => (.error e, ls1)
    | (.ok _, ls1) =>
      if i = 0 then
        let pubKHex := bytesToHex (hdPub addrNode)
        let keys2 := keys1 ++ [pubKHex]
        match dbInsertF fs (kcPref ++ pubKHex) (.enc privKHexEncrypted) ls1 with
        | (.error e, ls2) => (.error e, ls2)
        | (.ok _, ls2) => genLoop fs key root pathProfile rest keys2 ls2
      else genLoop fs key root pathProfile rest keys1 ls1

/-- `LocalStorageContainer.generateKeysFromKeyPath`: guard on unlock and
mnemonic validity (returning `undefined` otherwise), then derive and
persist `numberOfDerivedKeys` child keys of the profile. -/
def generateKeysFromKeyPath (fs : FailSpec) (kc : KC) (ls : LStore)
    (mnemonic : String) (pathProfile numberOfDerivedKeys : Nat) :
    Except Jerr (Option (List String)) × LStore :=
  if !isUnlock kc || !validateMnemonic mnemonic then (.ok none, ls)
  else
    let root := fromMasterSeed mnemonic
    match genLoop fs kc.encryptionKey root pathProfile (List.range numberOfDerivedKeys) [] ls with
    | (.error e, ls1) => (.error e, ls1)
    | (.ok keys, ls1) => (.ok (some keys), ls1)

/-- `LocalStorageContainer.createKeys`: load the key-seed record,
bootstrapping it from the master seed when absent, derive the three
profile keys at the current counter, then advance the counter once.
Dereferencing a still-`undefined` record or destructuring an `undefined`
result throws a `TypeError`, as in JavaScript. -/
def createKeys (fs : FailSpec) (kc : KC) (ls : LStore) :
    Except Jerr (Option (List String)) × LStore :=
  if isUnlock kc then
    match getKeySeed kc ls with
    | .error e => (.error e, ls)
    | .ok objectKeySeed =>
      match (match objectKeySeed with
             | some o => ((.ok (some o) : Except Jerr (Option (String × Nat))), ls)
             | none =>
               match generateKeySeed fs kc ls (getMasterSeed kc ls) with
               | (.error e, ls1) => (.error e, ls1)
               | (.ok true, ls1) =>
                 match getKeySeed kc ls1 with
                 | .error e => (.error e, ls1)
                 | .ok o2 => (.ok o2, ls1)
               | (.ok false, ls1) => (.ok none, ls1)) with
      | (.error e, ls2) => (.error e, ls2)
      | (.ok none, ls2) => (.error .typeError, ls2)
      | (.ok (some (keySeed, pathKey)), ls2) =>
        match generateKeysFromKeyPath fs kc ls2 keySeed pathKey 3 with
        | (.error e, ls3) => (.error e, ls3)
        | (.ok none, ls3) => (.error .typeError, ls3)
        | (.ok (some keys), ls3) =>
          match increaseKeyPath fs kc ls3 with
          | (.error e, ls4) => (.error e, ls4)
          | (.ok _, ls4) => (.ok (some keys), ls4)
  else (.ok none, ls)

/-- `LocalStorageContainer.generateSingleKey`: derive one key at
caller-supplied profile and index coordinates from the key seed and
persist it; the path counter is not touched. -/
def generateSingleKey (fs : FailSpec) (kc : KC) (ls : LStore)
    (keyProfilePath keyPath : Nat) : Except Jerr (Option String) × LStore :=
  if isUnlock kc then
    let path := pathOf keyProfilePath keyPath
    match getKeySeed kc ls with
    | .error e => (.error e, ls)
    | .ok none => (.error .typeError, ls)
    | .ok (some (keySeed, _)) =>
      let root := fromMasterSeed keySeed
      let addrNode := hdDerive root path
      let privK := hdPriv addrNode
      let addressHex := bytesToHex (privateToAddress privK)
      let privKHex := bytesToHex privK
      match dbInsertF fs (kcPref ++ addressHex) (.enc (encrypt kc.encryptionKey (.str privKHex))) ls with
      | (.error e, ls1) => (.error e, ls1)
      | (.ok _, ls1) => (.ok (some addressHex), ls1)
  else (.ok none, ls)

/-- `LocalStorageContainer.generateRecoveryAddr`: derive one recovery
keypair at the disjoint path `m/44'/60'/1'` directly from the master
seed and persist its encrypted private key under the recovery
namespace. -/
def generateRecoveryAddr (fs : FailSpec) (kc : KC) (ls : LStore)
    (masterSeed : String) : Except Jerr (Option String) × LStore :=
  if isUnlock kc then
    let root := fromMasterSeed masterSeed
    let addrNodeRecovery := hdDerive root "m/44\x27/60\x27/1\x27"
    let privRecovery := hdPriv addrNodeRecovery
    let addressRecoveryHex := bytesToHex (privateToAddress privRecovery)
    let privRecoveryHex := bytesToHex privRecovery
    let privRecoveryHexEncrypted := encrypt kc.encryptionKey (.str privRecoveryHex)
    match dbInsertF fs (kcPref ++ (recPref ++ addressRecoveryHex)) (.enc privRecoveryHexEncrypted) ls with
    | (.error e, ls1) => (.error e, ls1)
    | (.ok _, ls1) => (.ok (some addressRecoveryHex), ls1)
  else (.ok none, ls)

/-- JavaScript `String.replace(pat, '')` as used on a listed key that
starts with the pattern: drop the pattern prefix. -/
def replaceDrop (s pat : String) : String :=
  if lstarts pat.data s.data then String.mk (s.data.drop pat.data.length) else s

/-- `LocalStorageContainer.getRecoveryAddr`: list the recovery namespace
and return the first listed key with the container and recovery
namespaces stripped, `undefined` when locked or when no entry exists. -/
def getRecoveryAddr (kc : KC) (ls : LStore) : Option String :=
  if isUnlock kc then
    match dbListKeys (kcPref ++ recPref) ls with
    | [] => none
    | k0 :: _ => some (replaceDrop k0 (kcPref ++ recPref))
  else none

/-- `LocalStorageContainer.generateKeyRand`: persist a key built from
fresh wallet randomness (the generated private key is passed in as an
argument, standing for `ethWallet.generate()`). -/
def generateKeyRand (fs : FailSpec) (kc : KC) (ls : LStore)
    (rndPriv : String) : Except Jerr (Option String) × LStore :=
  if kc.encryptionKey = "" then (.ok none, ls)
  else
    let privK := rndPriv
    let addressHex := bytesToHex (privateToAddress privK)
    let privKHex := bytesToHex privK
    match dbInsertF fs (kcPref ++ addressHex) (.enc (encrypt kc.encryptionKey (.str privKHex))) ls with
    | (.error e, ls1) => (.error e, ls1)
    | (.ok _, ls1) => (.ok (some addressHex), ls1)

/-- `LocalStorageContainer.importKey`: encrypt and persist an externally
supplied private key under its computed address. -/
def importKey (fs : FailSpec) (kc : KC) (ls : LStore)
    (privKHex : String) : Except Jerr (Option String) × LStore :=
  if kc.encryptionKey = "" then (.ok none, ls)
  else
    let privK := hexToBytes privKHex
    let addressHex := bytesToHex (privateToAddress privK)
    match dbInsertF fs (kcPref ++ addressHex) (.enc (encrypt kc.encryptionKey (.str privKHex))) ls with
    | (.error e, ls1) => (.error e, ls1)
    | (.ok _, ls1) => (.ok (some addressHex), ls1)

/-- `LocalStorageContainer.sign`: return `'KeyContainer blocked'` when
locked; otherwise read whatever is stored under the address (without
checking for absence), hash the message, decrypt, sign, and build the
envelope. The `db.get` result flows straight into `kcUtils.decrypt`. -/
def sign (kc : KC) (ls : LStore) (addressHex data : String) :
    Except Jerr SignResult :=
  if kc.encryptionKey = "" then .ok .blocked
  else
    let privKHexEncrypted := dbGet (kcPref ++ addressHex) ls
    let message := toBufferS data
    let msgHash := hashPersonalMessage message
    match decryptItem kc.encryptionKey privKHexEncrypted with
    | .error e => .error e
    | .ok p =>
      let privKHex := plainToStr p
      let pk := hexToBytes privKHex
      .ok (.sigObj (concatSignature message msgHash (sigV msgHash pk) (sigR msgHash pk) (sigS msgHash pk)))

/-- `Db.export` (src/db.js): refuse when the container is locked;
otherwise gather every `localStorage` entry whose key contains the `Db`
namespace, serialize the set as one blob and encrypt it with the current
ephemeral key. -/
def dbExport (encKey : String) (ls : LStore) : Option EncBlob :=
  if encKey = "" then none
  else some ⟨encKey, .obj (ls.filter (fun p => hasSub dbPref.data p.1.data))⟩

/-- Modelled from the spec: decryption side of the export blob cipher. -/
def decryptBlob (key : String) (b : EncBlob) : Except Jerr Payload :=
  if b.bKey = key then .ok b.payload else .error .decryptionFailure

/-- `Db.import` (src/db.js): decrypt the blob with whatever encryption key
the container currently holds (there is no lock guard), `JSON.parse` the
result, and write every own-property back under its full key. A non-JSON
payload throws in `JSON.parse`; a JSON payload that is not an object
iterates no properties. -/
def dbImport (encKey : String) (ls : LStore) (dbEncr : EncBlob) :
    Except Jerr Unit × LStore :=
  match decryptBlob encKey dbEncr with
  | .error e => (.error e, ls)
  | .ok .bad => (.error .parseError, ls)
  | .ok (.nonObj _) => (.ok (), ls)
  | .ok (.obj l) => (.ok (), l.foldl (fun acc p => lsSet p.1 p.2 acc) ls)

/-- Timed container state for the auto-lock model: the ephemeral key, the
scheduled timeouts not yet fired or cancelled (identifier and absolute
firing time), the handle stored in `this.timer` (the latest `setTimeout`
result), and the next fresh identifier. -/
structure TKC where
  encryptionKey : String
  pending : List (Nat × Nat)
  handle : Option Nat
  nextId : Nat
deriving DecidableEq, Repr

/-- `LocalStorageContainer.unlock` at an instant: derive the ephemeral key
by stretching, schedule a 30000 ms timeout whose callback clears the key,
and overwrite `this.timer` with the new handle. The previously scheduled
timeout, if any, is not cancelled (the source has no `clearTimeout`
here). -/
def tUnlock (s : TKC) (now : Nat) (pass : String) : TKC :=
  { encryptionKey := passToKey pass "salt",
    pending := s.pending ++ [(s.nextId, now + 30000)],
    handle := some s.nextId,
    nextId := s.nextId + 1 }

/-- `LocalStorageContainer.lock`: report an error when already locked;
otherwise cancel the timeout `this.timer` refers to and clear the key. -/
def tLock (s : TKC) : TKC :=
  if s.encryptionKey = "" then s
  else
    { s with
      pending := s.pending.filter (fun e => if some e.1 = s.handle then false else true),
      encryptionKey := "" }

/-- `LocalStorageContainer.isUnlock` on the timed state. -/
def tIsUnlock (s : TKC) : Bool := s.encryptionKey ≠ ""

/-- Run every timeout due by `now`: each callback sets the ephemeral key to
the empty string; fired timeouts leave the pending set. -/
def tFire (now : Nat) (s : TKC) : TKC :=
  if s.pending.any (fun e => decide (e.2 ≤ now)) then
    { s with
      encryptionKey := "",
      pending := s.pending.filter (fun e => decide (now < e.2)) }
  else s

/-- An action of the single caller: `unlock(pass)` or `lock()`. -/
inductive TAct where
  | unl (pass : String)
  | lk
deriving DecidableEq, Repr

/-- Apply one caller action at an instant. -/
def applyAct (a : TAct) (now : Nat) (s : TKC) : TKC :=
  match a with
  | .unl pass => tUnlock s now pass
  | .lk => tLock s

/-- Run a time-ordered trace of caller actions, firing due timeouts before
each action and before the final observation instant. -/
def runTrace : List (Nat × TAct) → Nat → TKC → TKC
  | [], tEnd, s => tFire tEnd s
  | (t, a) :: rest, tEnd, s => runTrace rest tEnd (applyAct a t (tFire t s))

/-- The initial container: locked, no timer scheduled. -/
def tInit : TKC := ⟨"", [], none, 0⟩

/-- `n` successive `createKeys()` calls with reliable persistence,
tracking the store. -/
def createKeysN (kc : KC) : Nat → LStore → LStore
  | 0, ls => ls
  | n + 1, ls => createKeysN kc n (createKeys [] kc ls).2

/-- The full `localStorage` key of the key-seed record. -/
def kSeedKeyF : String := dbPref ++ (kcPref ++ "keySeed")

/-- A store holding a well-formed key-seed record for encryption key `k`,
mnemonic `seed` and counter `c`: the record is the only entry of the
`keySeed` namespace and decrypts with `k`. -/
def GoodKS (k seed : String) (c : Nat) (ls : LStore) : Prop :=
  dbListKeys (kcPref ++ "keySeed") ls = [kcPref ++ "keySeed"] ∧
  dbGet (kcPref ++ "keySeed") ls =
    some (.keyRec (encrypt k (.str seed)) (encrypt k (.num4 c)))

instance (k seed : String) (c : Nat) (ls : LStore) : Decidable (GoodKS k seed c ls) :=
  inferInstanceAs (Decidable (_ ∧ _))

/-- The address derived at profile `pp`, index `i` of a key seed. -/
def addrAt (seed : String) (pp i : Nat) : String :=
  bytesToHex (privateToAddress (hdPriv (hdDerive (fromMasterSeed seed) (pathOf pp i))))

/-- The raw public key derived at profile `pp`, index `i` of a key seed. -/
def pubAt (seed : String) (pp i : Nat) : String :=
  bytesToHex (hdPub (hdDerive (fromMasterSeed seed) (pathOf pp i)))

/-- The private key derived at profile `pp`, index `i` of a key seed. -/
def privAt (seed : String) (pp i : Nat) : String :=
  bytesToHex (hdPriv (hdDerive (fromMasterSeed seed) (pathOf pp i)))

/-- The key seed `generateKeySeed` derives from a master seed. -/
def seedOfMaster (ms : String) : String :=
  entropyToMnemonic (hdPriv (hdDerive (fromMasterSeed ms) "m/44\x27/60\x27/0\x27"))


/-! ### Generic store lemmas -/

theorem dataAppend (s t : String) : (s ++ t).data = s.data ++ t.data := rfl

theorem lsGet_append_self (k : String) (v : DbVal) (ls : LStore)
    (h : hasKey k ls = false) : lsGet k (ls ++ [(k, v)]) = some v := by
  induction ls with
  | nil => simp [lsGet]
  | cons p r ih =>
    cases p with
    | mk k1 w =>
      simp only [hasKey] at h
      by_cases hp : k1 = k
      · simp [hp] at h
      · simp only [List.cons_append, lsGet, if_neg hp]
        exact ih (by simpa [hp] using h)

theorem lsGet_append_ne (k kq : String) (v : DbVal) (ls : LStore)
    (h : k ≠ kq) : lsGet kq (ls ++ [(k, v)]) = lsGet kq ls := by
  induction ls with
  | nil => simp [lsGet, h]
  | cons p r ih =>
    cases p with
    | mk k1 w =>
      simp only [List.cons_append, lsGet]
      by_cases hq : k1 = kq
      · rw [if_pos hq, if_pos hq]
      · rw [if_neg hq, if_neg hq]
        exact ih

theorem lsGet_replace_self (k : String) (v : DbVal) (ls : LStore)
    (h : hasKey k ls = true) : lsGet k (lsReplace k v ls) = some v := by
  induction ls with
  | nil => simp [hasKey] at h
  | cons p r ih =>
    cases p with
    | mk k1 w =>
      simp only [hasKey] at h
      by_cases hp : k1 = k
      · simp [lsReplace, hp, lsGet]
      · simp only [lsReplace, if_neg hp, lsGet]
        exact ih (by simpa [hp] using h)

theorem lsGet_replace_ne (k kq : String) (v : DbVal) (ls : LStore)
    (h : k ≠ kq) : lsGet kq (lsReplace k v ls) = lsGet kq ls := by
  induction ls with
  | nil => simp [lsReplace]
  | cons p r ih =>
    cases p with
    | mk k1 w =>
      by_cases hp : k1 = k
      · subst hp
        simp only [lsReplace, if_pos rfl, lsGet]
        rw [if_neg h, if_neg h]
        exact ih
      · simp only [lsReplace, if_neg hp, lsGet]
        by_cases hq : k1 = kq
        · rw [if_pos hq, if_pos hq]
        · rw [if_neg hq, if_neg hq]
          exact ih

theorem lsGet_set_self (k : String) (v : DbVal) (ls : LStore) :
    lsGet k (lsSet k v ls) = some v := by
  unfold lsSet
  by_cases h : hasKey k ls = true
  · rw [if_pos h]; exact lsGet_replace_self k v ls h
  · rw [if_neg h]
    exact lsGet_append_self k v ls (by simpa using h)

theorem lsGet_set_ne (k kq : String) (v : DbVal) (ls : LStore) (h : k ≠ kq) :
    lsGet kq (lsSet k v ls) = lsGet kq ls := by
  unfold lsSet
  by_cases hk : hasKey k ls = true
  · rw [if_pos hk]; exact lsGet_replace_ne k kq v ls h
  · rw [if_neg hk]; exact lsGet_append_ne k kq v ls h

theorem mapfst_replace (k : String) (v : DbVal) (ls : LStore) :
    (lsReplace k v ls).map Prod.fst = ls.map Prod.fst := by
  induction ls with
  | nil => simp [lsReplace]
  | cons p r ih =>
    cases p with
    | mk k1 w =>
      by_cases hp : k1 = k
      · subst hp
        simp [lsReplace, ih]
      · simp [lsReplace, hp, ih]

theorem mapfst_lsSet (k : String) (v : DbVal) (ls : LStore) :
    (lsSet k v ls).map Prod.fst =
      if hasKey k ls then ls.map Prod.fst else ls.map Prod.fst ++ [k] := by
  unfold lsSet
  by_cases h : hasKey k ls = true
  · rw [if_pos h, if_pos h]; exact mapfst_replace k v ls
  · rw [if_neg h, if_neg h]; simp

theorem hasKey_iff_mem (k : String) (ls : LStore) :
    hasKey k ls = true ↔ k ∈ ls.map Prod.fst := by
  induction ls with
  | nil => simp [hasKey]
  | cons p r ih =>
    cases p with
    | mk k1 w =>
      by_cases hp : k1 = k
      · subst hp; simp [hasKey]
      · simp [hasKey, hp, ih, Ne.symm hp]

theorem hasKey_of_lsGet_some (k : String) (v : DbVal) (ls : LStore)
    (h : lsGet k ls = some v) : hasKey k ls = true := by
  induction ls with
  | nil => simp [lsGet] at h
  | cons p r ih =>
    cases p with
    | mk k1 w =>
      simp only [lsGet] at h
      by_cases hp : k1 = k
      · simp [hasKey, hp]
      · rw [if_neg hp] at h
        simp [hasKey, hp, ih h]

theorem dbListKeys_set_noMatch (p k : String) (v : DbVal) (ls : LStore)
    (h : nsMatch p k = false) :
    dbListKeys p (lsSet k v ls) = dbListKeys p ls := by
  unfold dbListKeys
  rw [mapfst_lsSet]
  by_cases hk : hasKey k ls = true
  · rw [if_pos hk]
  · rw [if_neg hk]
    rw [List.filter_append]
    simp [h]

theorem dbListKeys_set_hasKey (p k : String) (v : DbVal) (ls : LStore)
    (h : hasKey k ls = true) :
    dbListKeys p (lsSet k v ls) = dbListKeys p ls := by
  unfold dbListKeys
  rw [mapfst_lsSet, if_pos h]

theorem hasKey_false_of_listKeys_nil (p k : String) (ls : LStore)
    (hnil : dbListKeys p ls = [])
    (hpre : nsMatch p k = true) :
    hasKey k ls = false := by
  unfold dbListKeys at hnil
  rw [List.map_eq_nil_iff] at hnil
  by_cases h : hasKey k ls = true
  · exfalso
    have hmem : k ∈ ls.map Prod.fst := (hasKey_iff_mem k ls).mp h
    have : k ∈ (ls.map Prod.fst).filter (nsMatch p) :=
      List.mem_filter.mpr ⟨hmem, hpre⟩
    rw [hnil] at this
    simp at this
  · simpa using h

/-! ### Distinctness of the symbolic storage keys -/

theorem ccount_append (ch : Char) (a b : List Char) :
    ccount ch (a ++ b) = ccount ch a + ccount ch b := by
  induction a with
  | nil => simp [ccount]
  | cons x r ih => simp [ccount, ih]; omega

theorem nsMatch_ks_addrAt (s : String) (c i : Nat) :
    nsMatch (kcPref ++ "keySeed") (dbPref ++ (kcPref ++ addrAt s c i)) = false := rfl

theorem nsMatch_ks_pubAt (s : String) (c i : Nat) :
    nsMatch (kcPref ++ "keySeed") (dbPref ++ (kcPref ++ pubAt s c i)) = false := rfl

theorem nsMatch_ks_self : nsMatch (kcPref ++ "keySeed") (dbPref ++ (kcPref ++ "keySeed")) = true := rfl

theorem ne_ks_addrAt (s : String) (c i : Nat) :
    dbPref ++ (kcPref ++ "keySeed") ≠ dbPref ++ (kcPref ++ addrAt s c i) := by
  intro h
  have h5 : (dbPref ++ (kcPref ++ "keySeed")).data.take 5 =
      (dbPref ++ (kcPref ++ addrAt s c i)).data.take 5 := by rw [h]
  rw [show (dbPref ++ (kcPref ++ "keySeed")).data.take 5 = ['d', '-', 'k', '-', 'k'] from rfl] at h5
  rw [show (dbPref ++ (kcPref ++ addrAt s c i)).data.take 5 = ['d', '-', 'k', '-', 'a'] from rfl] at h5
  exact absurd h5 (by decide)

theorem ne_ks_pubAt (s : String) (c i : Nat) :
    dbPref ++ (kcPref ++ "keySeed") ≠ dbPref ++ (kcPref ++ pubAt s c i) := by
  intro h
  have h5 : (dbPref ++ (kcPref ++ "keySeed")).data.take 5 =
      (dbPref ++ (kcPref ++ pubAt s c i)).data.take 5 := by rw [h]
  rw [show (dbPref ++ (kcPref ++ "keySeed")).data.take 5 = ['d', '-', 'k', '-', 'k'] from rfl] at h5
  rw [show (dbPref ++ (kcPref ++ pubAt s c i)).data.take 5 = ['d', '-', 'k', '-', 'p'] from rfl] at h5
  exact absurd h5 (by decide)

theorem ne_addrAt_pubAt (s t : String) (c d i j : Nat) :
    dbPref ++ (kcPref ++ addrAt s c i) ≠ dbPref ++ (kcPref ++ pubAt t d j) := by
  intro h
  have h5 : (dbPref ++ (kcPref ++ addrAt s c i)).data.take 5 =
      (dbPref ++ (kcPref ++ pubAt t d j)).data.take 5 := by rw [h]
  rw [show (dbPref ++ (kcPref ++ addrAt s c i)).data.take 5 = ['d', '-', 'k', '-', 'a'] from rfl] at h5
  rw [show (dbPref ++ (kcPref ++ pubAt t d j)).data.take 5 = ['d', '-', 'k', '-', 'p'] from rfl] at h5
  exact absurd h5 (by decide)

theorem ne_addrAt_01 (s : String) (c : Nat) :
    dbPref ++ (kcPref ++ addrAt s c 0) ≠ dbPref ++ (kcPref ++ addrAt s c 1) := by
  intro h
  have hc := congrArg (fun t => ccount '0' t.data) h
  simp only [addrAt, bytesToHex, privateToAddress, hdPriv, hdDerive, fromMasterSeed, pathOf,
    dataAppend, ccount_append] at hc
  rw [show toString (0 : Nat) = "0" from rfl, show toString (1 : Nat) = "1" from rfl] at hc
  simp [ccount] at hc

theorem ne_addrAt_02 (s : String) (c : Nat) :
    dbPref ++ (kcPref ++ addrAt s c 0) ≠ dbPref ++ (kcPref ++ addrAt s c 2) := by
  intro h
  have hc := congrArg (fun t => ccount '0' t.data) h
  simp only [addrAt, bytesToHex, privateToAddress, hdPriv, hdDerive, fromMasterSeed, pathOf,
    dataAppend, ccount_append] at hc
  rw [show toString (0 : Nat) = "0" from rfl, show toString (2 : Nat) = "2" from rfl] at hc
  simp [ccount] at hc

theorem ne_addrAt_12 (s : String) (c : Nat) :
    dbPref ++ (kcPref ++ addrAt s c 1) ≠ dbPref ++ (kcPref ++ addrAt s c 2) := by
  intro h
  have hc := congrArg (fun t => ccount '1' t.data) h
  simp only [addrAt, bytesToHex, privateToAddress, hdPriv, hdDerive, fromMasterSeed, pathOf,
    dataAppend, ccount_append] at hc
  rw [show toString (1 : Nat) = "1" from rfl, show toString (2 : Nat) = "2" from rfl] at hc
  simp [ccount] at hc

theorem validateMnemonic_entropy (e : String) :
    validateMnemonic (entropyToMnemonic e) = true := rfl

/-! ### The createKeys step -/

/-- The four per-key writes a successful `createKeys` makes on top of a
store holding counter `c`: the three addresses and the index-0 public
key. -/
def ckChain (k seed : String) (c : Nat) (ls : LStore) : LStore :=
  lsSet (dbPref ++ (kcPref ++ addrAt seed c 2)) (.enc (encrypt k (.str (privAt seed c 2))))
    (lsSet (dbPref ++ (kcPref ++ addrAt seed c 1)) (.enc (encrypt k (.str (privAt seed c 1))))
      (lsSet (dbPref ++ (kcPref ++ pubAt seed c 0)) (.enc (encrypt k (.str (privAt seed c 0))))
        (lsSet (dbPref ++ (kcPref ++ addrAt seed c 0)) (.enc (encrypt k (.str (privAt seed c 0)))) ls)))

/-- The full store after a successful `createKeys` from counter `c`: the
four key writes plus the re-persisted record with counter `c + 1`. -/
def ckFull (k seed : String) (c : Nat) (ls : LStore) : LStore :=
  lsSet (dbPref ++ (kcPref ++ "keySeed"))
    (.keyRec (encrypt k (.str seed)) (encrypt k (.num4 (c + 1)))) (ckChain k seed c ls)

theorem getKeySeed_good (k seed : String) (c : Nat) (ls : LStore) (hk : k ≠ "")
    (hg : GoodKS k seed c ls) : getKeySeed ⟨k⟩ ls = .ok (some (seed, c)) := by
  obtain ⟨h1, h2⟩ := hg
  simp [getKeySeed, isUnlock, hk, h1, h2, joinComma, decrypt, encrypt, readUInt32BE, plainToStr]

theorem genKFKP_ok (k seed : String) (c : Nat) (ls : LStore) (hk : k ≠ "")
    (hv : validateMnemonic seed = true) :
    generateKeysFromKeyPath [] ⟨k⟩ ls seed c 3 =
      (.ok (some [addrAt seed c 0, pubAt seed c 0, addrAt seed c 1, addrAt seed c 2]),
        ckChain k seed c ls) := by
  have hr : List.range 3 = [0, 1, 2] := rfl
  simp [generateKeysFromKeyPath, isUnlock, hk, hv, hr, genLoop, dbInsertF, ckChain,
    addrAt, pubAt, privAt, bytesToHex]

theorem goodKS_ckChain (k seed : String) (c : Nat) (ls : LStore)
    (hg : GoodKS k seed c ls) : GoodKS k seed c (ckChain k seed c ls) := by
  obtain ⟨h1, h2⟩ := hg
  constructor
  · unfold ckChain
    rw [dbListKeys_set_noMatch _ _ _ _ (nsMatch_ks_addrAt seed c 2),
      dbListKeys_set_noMatch _ _ _ _ (nsMatch_ks_addrAt seed c 1),
      dbListKeys_set_noMatch _ _ _ _ (nsMatch_ks_pubAt seed c 0),
      dbListKeys_set_noMatch _ _ _ _ (nsMatch_ks_addrAt seed c 0)]
    exact h1
  · unfold ckChain dbGet
    rw [lsGet_set_ne _ _ _ _ (Ne.symm (ne_ks_addrAt seed c 2)),
      lsGet_set_ne _ _ _ _ (Ne.symm (ne_ks_addrAt seed c 1)),
      lsGet_set_ne _ _ _ _ (Ne.symm (ne_ks_pubAt seed c 0)),
      lsGet_set_ne _ _ _ _ (Ne.symm (ne_ks_addrAt seed c 0))]
    exact h2

theorem goodKS_set_rec (k seed : String) (c c2 : Nat) (ls : LStore)
    (hg : GoodKS k seed c ls) :
    GoodKS k seed c2
      (lsSet (dbPref ++ (kcPref ++ "keySeed"))
        (.keyRec (encrypt k (.str seed)) (encrypt k (.num4 c2))) ls) := by
  obtain ⟨h1, h2⟩ := hg
  have hhk : hasKey (dbPref ++ (kcPref ++ "keySeed")) ls = true :=
    hasKey_of_lsGet_some _ _ _ h2
  constructor
  · rw [dbListKeys_set_hasKey _ _ _ _ hhk]
    exact h1
  · unfold dbGet
    exact lsGet_set_self _ _ _

theorem increase_good (k seed : String) (c : Nat) (ls : LStore) (hk : k ≠ "")
    (hlt : c + 1 < 4294967296) (hg : GoodKS k seed c ls) :
    increaseKeyPath [] ⟨k⟩ ls =
      (.ok true,
        lsSet (dbPref ++ (kcPref ++ "keySeed"))
          (.keyRec (encrypt k (.str seed)) (encrypt k (.num4 (c + 1)))) ls) := by
  have hks := getKeySeed_good k seed c ls hk hg
  simp [increaseKeyPath, isUnlock, hk, hks, writeUInt32BE, hlt, dbInsertF, encrypt]

theorem createKeys_good (k seed : String) (c : Nat) (ls : LStore) (hk : k ≠ "")
    (hv : validateMnemonic seed = true) (hlt : c + 1 < 4294967296)
    (hg : GoodKS k seed c ls) :
    createKeys [] ⟨k⟩ ls =
      (.ok (some [addrAt seed c 0, pubAt seed c 0, addrAt seed c 1, addrAt seed c 2]),
        ckFull k seed c ls) ∧
    GoodKS k seed (c + 1) (ckFull k seed c ls) := by
  have hks := getKeySeed_good k seed c ls hk hg
  have hgc : GoodKS k seed c (ckChain k seed c ls) := goodKS_ckChain k seed c ls hg
  have hgen := genKFKP_ok k seed c ls hk hv
  have hinc := increase_good k seed c (ckChain k seed c ls) hk hlt hgc
  refine ⟨?_, ?_⟩
  · simp [createKeys, isUnlock, hk, hks, hgen, hinc, ckFull]
  · unfold ckFull
    exact goodKS_set_rec k seed c (c + 1) (ckChain k seed c ls) hgc

theorem createKeysN_good (k seed : String) (c n : Nat) (ls : LStore) (hk : k ≠ "")
    (hv : validateMnemonic seed = true) (hle : c + n < 4294967296)
    (hg : GoodKS k seed c ls) : GoodKS k seed (c + n) (createKeysN ⟨k⟩ n ls) := by
  induction n generalizing c ls with
  | zero => simpa [createKeysN] using hg
  | succ m ih =>
    have hlt : c + 1 < 4294967296 := by omega
    have hstep := createKeys_good k seed c ls hk hv hlt hg
    rw [createKeysN, hstep.1]
    have hrec := ih (c + 1) (ckFull k seed c ls) (by omega) hstep.2
    have he : c + 1 + m = c + (m + 1) := by omega
    rwa [he] at hrec

/-! ### Claim C1: the Locked guard -/

/-- C1: every key-touching operation (`createKeys`, `generateKeySeed`,
`getKeySeed`, `increaseKeyPath`, `generateSingleKey`,
`generateRecoveryAddr`, `generateKeyRand`, `importKey`, `sign`,
`getMasterSeed`, `export`) invoked while the store is Locked (empty
ephemeral key) returns its NotUnlocked failure value, leaves the store
untouched, and performs no work; in particular `sign` returns the blocked
result without reading the store at all (its result is independent of the
store contents). -/
theorem claim_c1 :
    (∀ fs ls, createKeys fs ⟨""⟩ ls = (.ok none, ls)) ∧
    (∀ fs ls ms, generateKeySeed fs ⟨""⟩ ls ms = (.ok false, ls)) ∧
    (∀ ls, getKeySeed ⟨""⟩ ls = .ok none) ∧
    (∀ fs ls, increaseKeyPath fs ⟨""⟩ ls = (.ok false, ls)) ∧
    (∀ fs ls pp i, generateSingleKey fs ⟨""⟩ ls pp i = (.ok none, ls)) ∧
    (∀ fs ls ms, generateRecoveryAddr fs ⟨""⟩ ls ms = (.ok none, ls)) ∧
    (∀ fs ls r, generateKeyRand fs ⟨""⟩ ls r = (.ok none, ls)) ∧
    (∀ fs ls pk, importKey fs ⟨""⟩ ls pk = (.ok none, ls)) ∧
    (∀ ls a d, sign ⟨""⟩ ls a d = .ok .blocked) ∧
    (∀ ls1 ls2 a d, sign ⟨""⟩ ls1 a d = sign ⟨""⟩ ls2 a d) ∧
    (∀ ls, getMasterSeed ⟨""⟩ ls = none) ∧
    (∀ ls, dbExport "" ls = none) :=
  ⟨fun _ _ => rfl, fun _ _ _ => rfl, fun _ => rfl, fun _ _ => rfl,
    fun _ _ _ _ => rfl, fun _ _ _ => rfl, fun _ _ _ => rfl, fun _ _ _ => rfl,
    fun _ _ _ => rfl, fun _ _ _ _ => rfl, fun _ => rfl, fun _ => rfl⟩

/-! ### Claim C2: path-counter monotonicity -/

/-- C2: starting from any Unlocked store holding a key-seed record with
counter `c`, `n` successful `createKeys()` calls leave the persisted
counter at exactly `c + n` (each call advances it by exactly one through
its single `increaseKeyPath()`), the counter never decreases
(`c ≤ c + n`), and no operation invoked while Locked mutates it (the
store is returned unchanged). -/
theorem claim_c2 (k seed : String) (c n : Nat) (ls : LStore) (hk : k ≠ "")
    (hv : validateMnemonic seed = true) (hle : c + n < 4294967296)
    (hg : GoodKS k seed c ls) :
    getKeySeed ⟨k⟩ (createKeysN ⟨k⟩ n ls) = .ok (some (seed, c + n)) ∧
    c ≤ c + n ∧
    (∀ fs ls2, createKeys fs ⟨""⟩ ls2 = (.ok none, ls2) ∧
      increaseKeyPath fs ⟨""⟩ ls2 = (.ok false, ls2)) := by
  refine ⟨?_, Nat.le_add_right c n, fun _ _ => ⟨rfl, rfl⟩⟩
  have := createKeysN_good k seed c n ls hk hv hle hg
  exact getKeySeed_good k seed (c + n) _ hk this

/-- Witness for C2 at a concrete store: counter 0, two calls, counter 2. -/
theorem claim_c2_witness :
    ("stretch(p,salt)" : String) ≠ "" ∧
    validateMnemonic "mnemonic:e" = true ∧
    (0 : Nat) + 2 < 4294967296 ∧
    GoodKS "stretch(p,salt)" "mnemonic:e" 0
      [(dbPref ++ (kcPref ++ "keySeed"),
        .keyRec (encrypt "stretch(p,salt)" (.str "mnemonic:e"))
          (encrypt "stretch(p,salt)" (.num4 0)))] ∧
    getKeySeed ⟨"stretch(p,salt)"⟩
      (createKeysN ⟨"stretch(p,salt)"⟩ 2
        [(dbPref ++ (kcPref ++ "keySeed"),
          .keyRec (encrypt "stretch(p,salt)" (.str "mnemonic:e"))
            (encrypt "stretch(p,salt)" (.num4 0)))]) =
      .ok (some ("mnemonic:e", 0 + 2)) :=
  ⟨by decide, by decide, by decide, by decide,
    (claim_c2 "stretch(p,salt)" "mnemonic:e" 0 2 _ (by decide) (by decide)
      (by decide) (by decide)).1⟩

/-! ### Claim C9: the 32-bit counter bound -/

/-- C9: the persisted path counter is a 4-byte big-endian value, so it is
bounded by 2^32 - 1. For an Unlocked store holding a record with counter
`c`: if `c` is strictly below 2^32 - 1, `increaseKeyPath()` persists
exactly `c + 1`; at `c = 2^32 - 1` the 4-byte write of the incremented
value throws a range error, the store is unchanged, and the counter stays
at `c` rather than wrapping to 0. -/
theorem claim_c9 (k seed : String) (c : Nat) (ls : LStore) (hk : k ≠ "")
    (hg : GoodKS k seed c ls) :
    (c < 4294967295 →
      increaseKeyPath [] ⟨k⟩ ls =
        (.ok true,
          lsSet (dbPref ++ (kcPref ++ "keySeed"))
            (.keyRec (encrypt k (.str seed)) (encrypt k (.num4 (c + 1)))) ls) ∧
      getKeySeed ⟨k⟩ (increaseKeyPath [] ⟨k⟩ ls).2 = .ok (some (seed, c + 1))) ∧
    (c = 4294967295 →
      increaseKeyPath [] ⟨k⟩ ls = (.error .rangeError, ls) ∧
      getKeySeed ⟨k⟩ (increaseKeyPath [] ⟨k⟩ ls).2 = .ok (some (seed, c))) := by
  constructor
  · intro hlt
    have hinc := increase_good k seed c ls hk (by omega) hg
    refine ⟨hinc, ?_⟩
    rw [hinc]
    exact getKeySeed_good k seed (c + 1) _ hk (goodKS_set_rec k seed c (c + 1) ls hg)
  · intro hc
    subst hc
    have hks := getKeySeed_good k seed 4294967295 ls hk hg
    have hinc : increaseKeyPath [] ⟨k⟩ ls = (.error .rangeError, ls) := by
      simp [increaseKeyPath, isUnlock, hk, hks, writeUInt32BE]
    refine ⟨hinc, ?_⟩
    rw [hinc]
    exact hks

/-- Witness for C9: both branches at concrete stores, counter 7 and
counter 2^32 - 1. -/
theorem claim_c9_witness :
    (("stretch(p,salt)" : String) ≠ "" ∧
      GoodKS "stretch(p,salt)" "mnemonic:e" 7
        [(dbPref ++ (kcPref ++ "keySeed"),
          .keyRec (encrypt "stretch(p,salt)" (.str "mnemonic:e"))
            (encrypt "stretch(p,salt)" (.num4 7)))] ∧
      (7 : Nat) < 4294967295 ∧
      getKeySeed ⟨"stretch(p,salt)"⟩
        (increaseKeyPath [] ⟨"stretch(p,salt)"⟩
          [(dbPref ++ (kcPref ++ "keySeed"),
            .keyRec (encrypt "stretch(p,salt)" (.str "mnemonic:e"))
              (encrypt "stretch(p,salt)" (.num4 7)))]).2 =
        .ok (some ("mnemonic:e", 7 + 1))) ∧
    (GoodKS "stretch(p,salt)" "mnemonic:e" 4294967295
        [(dbPref ++ (kcPref ++ "keySeed"),
          .keyRec (encrypt "stretch(p,salt)" (.str "mnemonic:e"))
            (encrypt "stretch(p,salt)" (.num4 4294967295)))] ∧
      increaseKeyPath [] ⟨"stretch(p,salt)"⟩
        [(dbPref ++ (kcPref ++ "keySeed"),
          .keyRec (encrypt "stretch(p,salt)" (.str "mnemonic:e"))
            (encrypt "stretch(p,salt)" (.num4 4294967295)))] =
        (.error .rangeError,
          [(dbPref ++ (kcPref ++ "keySeed"),
            .keyRec (encrypt "stretch(p,salt)" (.str "mnemonic:e"))
              (encrypt "stretch(p,salt)" (.num4 4294967295)))])) :=
  ⟨⟨by decide, by decide, by decide,
    ((claim_c9 "stretch(p,salt)" "mnemonic:e" 7 _ (by decide) (by decide)).1
      (by decide)).2⟩,
    ⟨by decide,
      ((claim_c9 "stretch(p,salt)" "mnemonic:e" 4294967295 _ (by decide)
        (by decide)).2 rfl).1⟩⟩

/-! ### Claim C10: getRecoveryAddr while Locked -/

/-- C10: `getRecoveryAddr` requires the store to be Unlocked even though
it only reads stored key labels: invoked while Locked it returns absent
(`undefined`) for every store, including stores that do hold a recovery
record, and that result is indistinguishable from the absent result an
Unlocked call returns when no recovery record exists. -/
theorem claim_c10 :
    (∀ ls, getRecoveryAddr ⟨""⟩ ls = none) ∧
    (∀ k ls, k ≠ "" → dbListKeys (kcPref ++ recPref) ls = [] →
      getRecoveryAddr ⟨k⟩ ls = none) ∧
    (∀ ls k ls2, k ≠ "" → dbListKeys (kcPref ++ recPref) ls2 = [] →
      getRecoveryAddr ⟨""⟩ ls = getRecoveryAddr ⟨k⟩ ls2) := by
  have h1 : ∀ ls, getRecoveryAddr (⟨""⟩ : KC) ls = none := fun _ => rfl
  have h2 : ∀ k ls, k ≠ "" → dbListKeys (kcPref ++ recPref) ls = [] →
      getRecoveryAddr ⟨k⟩ ls = none := by
    intro k ls hk hnil
    simp [getRecoveryAddr, isUnlock, hk, hnil]
  exact ⟨h1, h2, fun ls k ls2 hk hnil => by rw [h1 ls, h2 k ls2 hk hnil]⟩

/-- Witness for C10: a locked store holding a recovery record gives the
same absent answer as an unlocked store with none. -/
theorem claim_c10_witness :
    ("stretch(p,salt)" : String) ≠ "" ∧
    dbListKeys (kcPref ++ recPref) [] = [] ∧
    getRecoveryAddr ⟨""⟩
      [(dbPref ++ (kcPref ++ (recPref ++ "addr(x)")),
        .enc (encrypt "stretch(p,salt)" (.str "pv")))] =
      getRecoveryAddr ⟨"stretch(p,salt)"⟩ [] :=
  ⟨by decide, by decide,
    (claim_c10.2.2
      [(dbPref ++ (kcPref ++ (recPref ++ "addr(x)")),
        .enc (encrypt "stretch(p,salt)" (.str "pv")))]
      "stretch(p,salt)" [] (by decide) (by decide))⟩

/-! ### Claim C3: createKeys derivation, persistence and bootstrap -/

theorem ckFull_lookup_addr0 (k seed : String) (c : Nat) (ls : LStore) :
    dbGet (kcPref ++ addrAt seed c 0) (ckFull k seed c ls) =
      some (.enc (encrypt k (.str (privAt seed c 0)))) := by
  unfold dbGet ckFull ckChain
  rw [lsGet_set_ne _ _ _ _ (ne_ks_addrAt seed c 0),
    lsGet_set_ne _ _ _ _ (Ne.symm (ne_addrAt_02 seed c)),
    lsGet_set_ne _ _ _ _ (Ne.symm (ne_addrAt_01 seed c)),
    lsGet_set_ne _ _ _ _ (Ne.symm (ne_addrAt_pubAt seed seed c c 0 0)),
    lsGet_set_self]

theorem ckFull_lookup_pub0 (k seed : String) (c : Nat) (ls : LStore) :
    dbGet (kcPref ++ pubAt seed c 0) (ckFull k seed c ls) =
      some (.enc (encrypt k (.str (privAt seed c 0)))) := by
  unfold dbGet ckFull ckChain
  rw [lsGet_set_ne _ _ _ _ (ne_ks_pubAt seed c 0),
    lsGet_set_ne _ _ _ _ (ne_addrAt_pubAt seed seed c c 2 0),
    lsGet_set_ne _ _ _ _ (ne_addrAt_pubAt seed seed c c 1 0),
    lsGet_set_self]

theorem ckFull_lookup_addr1 (k seed : String) (c : Nat) (ls : LStore) :
    dbGet (kcPref ++ addrAt seed c 1) (ckFull k seed c ls) =
      some (.enc (encrypt k (.str (privAt seed c 1)))) := by
  unfold dbGet ckFull ckChain
  rw [lsGet_set_ne _ _ _ _ (ne_ks_addrAt seed c 1),
    lsGet_set_ne _ _ _ _ (Ne.symm (ne_addrAt_12 seed c)),
    lsGet_set_self]

theorem ckFull_lookup_addr2 (k seed : String) (c : Nat) (ls : LStore) :
    dbGet (kcPref ++ addrAt seed c 2) (ckFull k seed c ls) =
      some (.enc (encrypt k (.str (privAt seed c 2)))) := by
  unfold dbGet ckFull ckChain
  rw [lsGet_set_ne _ _ _ _ (ne_ks_addrAt seed c 2),
    lsGet_set_self]

theorem getMasterSeed_good (k ms : String) (ls : LStore) (hk : k ≠ "")
    (hms1 : dbListKeys (kcPref ++ "masterSeed") ls = [kcPref ++ "masterSeed"])
    (hms2 : dbGet (kcPref ++ "masterSeed") ls = some (.enc (encrypt k (.str ms)))) :
    getMasterSeed ⟨k⟩ ls = some ms := by
  simp [getMasterSeed, isUnlock, hk, hms1, hms2, joinComma, decryptItem, decrypt,
    encrypt, plainToStr]

theorem getKeySeed_nil (k : String) (ls : LStore) (hk : k ≠ "")
    (hnks : dbListKeys (kcPref ++ "keySeed") ls = []) :
    getKeySeed ⟨k⟩ ls = .ok none := by
  simp [getKeySeed, isUnlock, hk, hnks]

theorem generateKeySeed_ok (k ms : String) (ls : LStore) (hk : k ≠ "") :
    generateKeySeed [] ⟨k⟩ ls (some ms) =
      (.ok true,
        lsSet (dbPref ++ (kcPref ++ "keySeed"))
          (.keyRec (encrypt k (.str (seedOfMaster ms))) (encrypt k (.num4 0))) ls) := by
  simp [generateKeySeed, isUnlock, hk, writeUInt32BE, dbInsertF, seedOfMaster]

theorem goodKS_fresh (k seed : String) (c2 : Nat) (ls : LStore)
    (hnks : dbListKeys (kcPref ++ "keySeed") ls = []) :
    GoodKS k seed c2
      (lsSet (dbPref ++ (kcPref ++ "keySeed"))
        (.keyRec (encrypt k (.str seed)) (encrypt k (.num4 c2))) ls) := by
  have hhk : hasKey (dbPref ++ (kcPref ++ "keySeed")) ls = false :=
    hasKey_false_of_listKeys_nil _ _ ls hnks nsMatch_ks_self
  constructor
  · unfold dbListKeys at hnks ⊢
    rw [List.map_eq_nil_iff] at hnks
    rw [mapfst_lsSet, if_neg (by simp [hhk]), List.filter_append, hnks]
    simp [nsMatch_ks_self]
    decide
  · unfold dbGet
    exact lsGet_set_self _ _ _

theorem createKeys_bootstrap (k ms : String) (ls : LStore) (hk : k ≠ "")
    (hnks : dbListKeys (kcPref ++ "keySeed") ls = [])
    (hms1 : dbListKeys (kcPref ++ "masterSeed") ls = [kcPref ++ "masterSeed"])
    (hms2 : dbGet (kcPref ++ "masterSeed") ls = some (.enc (encrypt k (.str ms)))) :
    createKeys [] ⟨k⟩ ls =
      (.ok (some [addrAt (seedOfMaster ms) 0 0, pubAt (seedOfMaster ms) 0 0,
          addrAt (seedOfMaster ms) 0 1, addrAt (seedOfMaster ms) 0 2]),
        ckFull k (seedOfMaster ms) 0
          (lsSet (dbPref ++ (kcPref ++ "keySeed"))
            (.keyRec (encrypt k (.str (seedOfMaster ms))) (encrypt k (.num4 0))) ls)) ∧
    GoodKS k (seedOfMaster ms) 1
      (ckFull k (seedOfMaster ms) 0
        (lsSet (dbPref ++ (kcPref ++ "keySeed"))
          (.keyRec (encrypt k (.str (seedOfMaster ms))) (encrypt k (.num4 0))) ls)) := by
  have hnil := getKeySeed_nil k ls hk hnks
  have hmsd := getMasterSeed_good k ms ls hk hms1 hms2
  have hgen := generateKeySeed_ok k ms ls hk
  have hfresh : GoodKS k (seedOfMaster ms) 0
      (lsSet (dbPref ++ (kcPref ++ "keySeed"))
        (.keyRec (encrypt k (.str (seedOfMaster ms))) (encrypt k (.num4 0))) ls) :=
    goodKS_fresh k (seedOfMaster ms) 0 ls hnks
  have hv : validateMnemonic (seedOfMaster ms) = true := rfl
  have hstep := createKeys_good k (seedOfMaster ms) 0 _ hk hv (by omega) hfresh
  refine ⟨?_, hstep.2⟩
  have hks1 := getKeySeed_good k (seedOfMaster ms) 0 _ hk hfresh
  have hgenk := genKFKP_ok k (seedOfMaster ms) 0
    (lsSet (dbPref ++ (kcPref ++ "keySeed"))
      (.keyRec (encrypt k (.str (seedOfMaster ms))) (encrypt k (.num4 0))) ls) hk hv
  have hinc := increase_good k (seedOfMaster ms) 0 _ hk (by omega)
    (goodKS_ckChain k (seedOfMaster ms) 0 _ hfresh)
  simp [createKeys, isUnlock, hk, hnil, hmsd, hgen, hks1, hgenk, hinc, ckFull]

/-- C3: for an Unlocked store, `createKeys()` derives exactly three child
keys at coordinates `(keySeed, pathCounter, i)` for `i = 0, 1, 2`,
persists each derived key's encrypted private key under its address,
additionally persists the index-0 private key under that key's raw public
key, calls `increaseKeyPath()` exactly once (the persisted counter moves
from `c` to `c + 1`), and returns the generated identifiers; when no
key-seed record exists it first bootstraps one from the stored master
seed (counter 0) and proceeds identically. -/
theorem claim_c3 :
    (∀ k seed c ls, k ≠ "" → validateMnemonic seed = true →
      c + 1 < 4294967296 → GoodKS k seed c ls →
      createKeys [] ⟨k⟩ ls =
        (.ok (some [addrAt seed c 0, pubAt seed c 0, addrAt seed c 1, addrAt seed c 2]),
          ckFull k seed c ls) ∧
      dbGet (kcPref ++ addrAt seed c 0) (ckFull k seed c ls) =
        some (.enc (encrypt k (.str (privAt seed c 0)))) ∧
      dbGet (kcPref ++ pubAt seed c 0) (ckFull k seed c ls) =
        some (.enc (encrypt k (.str (privAt seed c 0)))) ∧
      dbGet (kcPref ++ addrAt seed c 1) (ckFull k seed c ls) =
        some (.enc (encrypt k (.str (privAt seed c 1)))) ∧
      dbGet (kcPref ++ addrAt seed c 2) (ckFull k seed c ls) =
        some (.enc (encrypt k (.str (privAt seed c 2)))) ∧
      getKeySeed ⟨k⟩ (ckFull k seed c ls) = .ok (some (seed, c + 1))) ∧
    (∀ k ms ls, k ≠ "" →
      dbListKeys (kcPref ++ "keySeed") ls = [] →
      dbListKeys (kcPref ++ "masterSeed") ls = [kcPref ++ "masterSeed"] →
      dbGet (kcPref ++ "masterSeed") ls = some (.enc (encrypt k (.str ms))) →
      createKeys [] ⟨k⟩ ls =
        (.ok (some [addrAt (seedOfMaster ms) 0 0, pubAt (seedOfMaster ms) 0 0,
            addrAt (seedOfMaster ms) 0 1, addrAt (seedOfMaster ms) 0 2]),
          ckFull k (seedOfMaster ms) 0
            (lsSet (dbPref ++ (kcPref ++ "keySeed"))
              (.keyRec (encrypt k (.str (seedOfMaster ms))) (encrypt k (.num4 0))) ls)) ∧
      getKeySeed ⟨k⟩ (createKeys [] ⟨k⟩ ls).2 = .ok (some (seedOfMaster ms, 1))) := by
  constructor
  · intro k seed c ls hk hv hlt hg
    have hstep := createKeys_good k seed c ls hk hv hlt hg
    exact ⟨hstep.1, ckFull_lookup_addr0 k seed c ls, ckFull_lookup_pub0 k seed c ls,
      ckFull_lookup_addr1 k seed c ls, ckFull_lookup_addr2 k seed c ls,
      getKeySeed_good k seed (c + 1) _ hk hstep.2⟩
  · intro k ms ls hk hnks hms1 hms2
    have hboot := createKeys_bootstrap k ms ls hk hnks hms1 hms2
    refine ⟨hboot.1, ?_⟩
    rw [hboot.1]
    exact getKeySeed_good k (seedOfMaster ms) 1 _ hk hboot.2

/-- Witness for C3: both branches at concrete stores (existing record at
counter 5; bootstrap from a stored master seed). -/
theorem claim_c3_witness :
    (("stretch(p,salt)" : String) ≠ "" ∧
      validateMnemonic "mnemonic:e" = true ∧
      (5 : Nat) + 1 < 4294967296 ∧
      GoodKS "stretch(p,salt)" "mnemonic:e" 5
        [(dbPref ++ (kcPref ++ "keySeed"),
          .keyRec (encrypt "stretch(p,salt)" (.str "mnemonic:e"))
            (encrypt "stretch(p,salt)" (.num4 5)))] ∧
      (createKeys [] ⟨"stretch(p,salt)"⟩
          [(dbPref ++ (kcPref ++ "keySeed"),
            .keyRec (encrypt "stretch(p,salt)" (.str "mnemonic:e"))
              (encrypt "stretch(p,salt)" (.num4 5)))]).1 =
        .ok (some [addrAt "mnemonic:e" 5 0, pubAt "mnemonic:e" 5 0,
          addrAt "mnemonic:e" 5 1, addrAt "mnemonic:e" 5 2])) ∧
    (dbListKeys (kcPref ++ "keySeed")
        [(dbPref ++ (kcPref ++ "masterSeed"),
          .enc (encrypt "stretch(p,salt)" (.str "ms")))] = [] ∧
      getKeySeed ⟨"stretch(p,salt)"⟩
        (createKeys [] ⟨"stretch(p,salt)"⟩
          [(dbPref ++ (kcPref ++ "masterSeed"),
            .enc (encrypt "stretch(p,salt)" (.str "ms")))]).2 =
        .ok (some (seedOfMaster "ms", 1))) := by
  constructor
  · refine ⟨by decide, by decide, by decide, by decide, ?_⟩
    have h := (claim_c3.1 "stretch(p,salt)" "mnemonic:e" 5
      [(dbPref ++ (kcPref ++ "keySeed"),
        .keyRec (encrypt "stretch(p,salt)" (.str "mnemonic:e"))
          (encrypt "stretch(p,salt)" (.num4 5)))]
      (by decide) (by decide) (by decide) (by decide)).1
    rw [h]
  · refine ⟨by decide, ?_⟩
    exact (claim_c3.2 "stretch(p,salt)" "ms"
      [(dbPref ++ (kcPref ++ "masterSeed"),
        .enc (encrypt "stretch(p,salt)" (.str "ms")))]
      (by decide) (by decide) (by decide) (by decide)).2

/-! ### Claim C4: failure atomicity of createKeys -/

theorem goodKS_set_addrKey (k seed : String) (c : Nat) (s2 : String) (c2 i : Nat)
    (v : DbVal) (ls : LStore) (hg : GoodKS k seed c ls) :
    GoodKS k seed c (lsSet (dbPref ++ (kcPref ++ addrAt s2 c2 i)) v ls) := by
  obtain ⟨h1, h2⟩ := hg
  constructor
  · rw [dbListKeys_set_noMatch _ _ _ _ (nsMatch_ks_addrAt s2 c2 i)]
    exact h1
  · unfold dbGet
    rw [lsGet_set_ne _ _ _ _ (Ne.symm (ne_ks_addrAt s2 c2 i))]
    exact h2

theorem goodKS_set_pubKey (k seed : String) (c : Nat) (s2 : String) (c2 i : Nat)
    (v : DbVal) (ls : LStore) (hg : GoodKS k seed c ls) :
    GoodKS k seed c (lsSet (dbPref ++ (kcPref ++ pubAt s2 c2 i)) v ls) := by
  obtain ⟨h1, h2⟩ := hg
  constructor
  · rw [dbListKeys_set_noMatch _ _ _ _ (nsMatch_ks_pubAt s2 c2 i)]
    exact h1
  · unfold dbGet
    rw [lsGet_set_ne _ _ _ _ (Ne.symm (ne_ks_pubAt s2 c2 i))]
    exact h2

theorem genLoop_c4 (fs : FailSpec) (k seed : String) (c : Nat) (ls : LStore)
    (hg : GoodKS k seed c ls) :
    (∃ e2 s2, genLoop fs k (fromMasterSeed seed) c [0, 1, 2] [] ls = (.error e2, s2) ∧
      GoodKS k seed c s2) ∨
    genLoop fs k (fromMasterSeed seed) c [0, 1, 2] [] ls =
      (.ok [addrAt seed c 0, pubAt seed c 0, addrAt seed c 1, addrAt seed c 2],
        ckChain k seed c ls) := by
  by_cases hm0 : (dbPref ++ (kcPref ++ addrAt seed c 0)) ∈ fs
  · left
    refine ⟨.persistenceFailure, ls, ?_, hg⟩
    simp only [addrAt] at hm0
    simp [genLoop, dbInsertF, hm0]
  · by_cases hmp : (dbPref ++ (kcPref ++ pubAt seed c 0)) ∈ fs
    · left
      refine ⟨.persistenceFailure,
        lsSet (dbPref ++ (kcPref ++ addrAt seed c 0))
          (.enc (encrypt k (.str (privAt seed c 0)))) ls, ?_,
        goodKS_set_addrKey k seed c seed c 0 _ ls hg⟩
      simp only [addrAt] at hm0
      simp only [pubAt] at hmp
      simp [genLoop, dbInsertF, hm0, hmp, addrAt, privAt]
    · by_cases hm1 : (dbPref ++ (kcPref ++ addrAt seed c 1)) ∈ fs
      · left
        refine ⟨.persistenceFailure,
          lsSet (dbPref ++ (kcPref ++ pubAt seed c 0))
            (.enc (encrypt k (.str (privAt seed c 0))))
            (lsSet (dbPref ++ (kcPref ++ addrAt seed c 0))
              (.enc (encrypt k (.str (privAt seed c 0)))) ls), ?_,
          goodKS_set_pubKey k seed c seed c 0 _ _
            (goodKS_set_addrKey k seed c seed c 0 _ ls hg)⟩
        simp only [addrAt] at hm0 hm1
        simp only [pubAt] at hmp
        simp [genLoop, dbInsertF, hm0, hmp, hm1, addrAt, pubAt, privAt]
      · by_cases hm2 : (dbPref ++ (kcPref ++ addrAt seed c 2)) ∈ fs
        · left
          refine ⟨.persistenceFailure,
            lsSet (dbPref ++ (kcPref ++ addrAt seed c 1))
              (.enc (encrypt k (.str (privAt seed c 1))))
              (lsSet (dbPref ++ (kcPref ++ pubAt seed c 0))
                (.enc (encrypt k (.str (privAt seed c 0))))
                (lsSet (dbPref ++ (kcPref ++ addrAt seed c 0))
                  (.enc (encrypt k (.str (privAt seed c 0)))) ls)), ?_,
            goodKS_set_addrKey k seed c seed c 1 _ _
              (goodKS_set_pubKey k seed c seed c 0 _ _
                (goodKS_set_addrKey k seed c seed c 0 _ ls hg))⟩
          simp only [addrAt] at hm0 hm1 hm2
          simp only [pubAt] at hmp
          simp [genLoop, dbInsertF, hm0, hmp, hm1, hm2, addrAt, pubAt, privAt]
        · right
          simp only [addrAt] at hm0 hm1 hm2
          simp only [pubAt] at hmp
          simp [genLoop, dbInsertF, hm0, hmp, hm1, hm2, ckChain, addrAt, pubAt, privAt]

/-- C4 amended: whenever `createKeys()` fails, whatever the set of failing
writes, the persisted path counter does not advance (it still reads `c`
afterwards); the counterexample shows the keys written before the failing
write do remain, so the operation is not all-or-nothing. -/
theorem claim_c4_amended (fs : FailSpec) (k seed : String) (c : Nat) (ls : LStore)
    (hk : k ≠ "") (hv : validateMnemonic seed = true) (hg : GoodKS k seed c ls)
    (e : Jerr) (hfail : (createKeys fs ⟨k⟩ ls).1 = .error e) :
    getKeySeed ⟨k⟩ (createKeys fs ⟨k⟩ ls).2 = .ok (some (seed, c)) := by
  have hks := getKeySeed_good k seed c ls hk hg
  have hr : List.range 3 = [0, 1, 2] := rfl
  rcases genLoop_c4 fs k seed c ls hg with ⟨e2, s2, hgl, hg2⟩ | hgl
  · have hgen : generateKeysFromKeyPath fs ⟨k⟩ ls seed c 3 = (.error e2, s2) := by
      simp [generateKeysFromKeyPath, isUnlock, hk, hv, hr, hgl]
    have hck : createKeys fs ⟨k⟩ ls = (.error e2, s2) := by
      simp [createKeys, isUnlock, hk, hks, hgen]
    rw [hck]
    exact getKeySeed_good k seed c s2 hk hg2
  · have hgen : generateKeysFromKeyPath fs ⟨k⟩ ls seed c 3 =
        (.ok (some [addrAt seed c 0, pubAt seed c 0, addrAt seed c 1, addrAt seed c 2]),
          ckChain k seed c ls) := by
      simp [generateKeysFromKeyPath, isUnlock, hk, hv, hr, hgl]
    have hgc := goodKS_ckChain k seed c ls hg
    have hksc := getKeySeed_good k seed c _ hk hgc
    by_cases hlt : c + 1 < 4294967296
    · by_cases hmk : (dbPref ++ (kcPref ++ "keySeed")) ∈ fs
      · have hinc : increaseKeyPath fs ⟨k⟩ (ckChain k seed c ls) =
            (.error .persistenceFailure, ckChain k seed c ls) := by
          simp [increaseKeyPath, isUnlock, hk, hksc, writeUInt32BE, hlt, dbInsertF, hmk]
        have hck : createKeys fs ⟨k⟩ ls = (.error .persistenceFailure, ckChain k seed c ls) := by
          simp [createKeys, isUnlock, hk, hks, hgen, hinc]
        rw [hck]
        exact hksc
      · have hinc : increaseKeyPath fs ⟨k⟩ (ckChain k seed c ls) =
            (.ok true,
              lsSet (dbPref ++ (kcPref ++ "keySeed"))
                (.keyRec (encrypt k (.str seed)) (encrypt k (.num4 (c + 1))))
                (ckChain k seed c ls)) := by
          simp [increaseKeyPath, isUnlock, hk, hksc, writeUInt32BE, hlt, dbInsertF, hmk,
            encrypt]
        have hck : (createKeys fs ⟨k⟩ ls).1 =
            .ok (some [addrAt seed c 0, pubAt seed c 0, addrAt seed c 1, addrAt seed c 2]) := by
          simp [createKeys, isUnlock, hk, hks, hgen, hinc]
        rw [hck] at hfail
        exact absurd hfail (by simp)
    · have hinc : increaseKeyPath fs ⟨k⟩ (ckChain k seed c ls) =
          (.error .rangeError, ckChain k seed c ls) := by
        simp [increaseKeyPath, isUnlock, hk, hksc, writeUInt32BE, hlt]
      have hck : createKeys fs ⟨k⟩ ls = (.error .rangeError, ckChain k seed c ls) := by
        simp [createKeys, isUnlock, hk, hks, hgen, hinc]
      rw [hck]
      exact hksc

/-- Counterexample for C4 as stated: with the second derived key's write
failing, `createKeys()` raises a persistence failure and the path counter
stays put, but the first derived key's entry (absent beforehand) is left
persisted, so partial state is observable: the commit is not
all-or-nothing. -/
theorem claim_c4_counterexample :
    (createKeys [dbPref ++ (kcPref ++ addrAt "mnemonic:e" 0 1)] ⟨"stretch(p,salt)"⟩
        [(dbPref ++ (kcPref ++ "keySeed"),
          .keyRec (encrypt "stretch(p,salt)" (.str "mnemonic:e"))
            (encrypt "stretch(p,salt)" (.num4 0)))]).1 =
      .error .persistenceFailure ∧
    dbGet (kcPref ++ addrAt "mnemonic:e" 0 0)
      [(dbPref ++ (kcPref ++ "keySeed"),
        .keyRec (encrypt "stretch(p,salt)" (.str "mnemonic:e"))
          (encrypt "stretch(p,salt)" (.num4 0)))] = none ∧
    dbGet (kcPref ++ addrAt "mnemonic:e" 0 0)
      (createKeys [dbPref ++ (kcPref ++ addrAt "mnemonic:e" 0 1)] ⟨"stretch(p,salt)"⟩
        [(dbPref ++ (kcPref ++ "keySeed"),
          .keyRec (encrypt "stretch(p,salt)" (.str "mnemonic:e"))
            (encrypt "stretch(p,salt)" (.num4 0)))]).2 =
      some (.enc (encrypt "stretch(p,salt)" (.str (privAt "mnemonic:e" 0 0)))) ∧
    getKeySeed ⟨"stretch(p,salt)"⟩
      (createKeys [dbPref ++ (kcPref ++ addrAt "mnemonic:e" 0 1)] ⟨"stretch(p,salt)"⟩
        [(dbPref ++ (kcPref ++ "keySeed"),
          .keyRec (encrypt "stretch(p,salt)" (.str "mnemonic:e"))
            (encrypt "stretch(p,salt)" (.num4 0)))]).2 =
      .ok (some ("mnemonic:e", 0)) :=
  ⟨rfl, by decide, by decide, rfl⟩

/-- Witness for the amended C4 at the counterexample input: second key
write fails, counter still reads 0 afterwards. -/
theorem claim_c4_witness :
    ("stretch(p,salt)" : String) ≠ "" ∧
    validateMnemonic "mnemonic:e" = true ∧
    GoodKS "stretch(p,salt)" "mnemonic:e" 0
      [(dbPref ++ (kcPref ++ "keySeed"),
        .keyRec (encrypt "stretch(p,salt)" (.str "mnemonic:e"))
          (encrypt "stretch(p,salt)" (.num4 0)))] ∧
    getKeySeed ⟨"stretch(p,salt)"⟩
      (createKeys [dbPref ++ (kcPref ++ addrAt "mnemonic:e" 0 1)] ⟨"stretch(p,salt)"⟩
        [(dbPref ++ (kcPref ++ "keySeed"),
          .keyRec (encrypt "stretch(p,salt)" (.str "mnemonic:e"))
            (encrypt "stretch(p,salt)" (.num4 0)))]).2 =
      .ok (some ("mnemonic:e", 0)) :=
  ⟨by decide, by decide, by decide,
    claim_c4_amended [dbPref ++ (kcPref ++ addrAt "mnemonic:e" 0 1)]
      "stretch(p,salt)" "mnemonic:e" 0
      [(dbPref ++ (kcPref ++ "keySeed"),
        .keyRec (encrypt "stretch(p,salt)" (.str "mnemonic:e"))
          (encrypt "stretch(p,salt)" (.num4 0)))]
      (by decide) (by decide) (by decide) .persistenceFailure rfl⟩

/-! ### Claim C5: error kinds of sign -/

/-- C5 amended: while Unlocked, `sign` raises `DecryptionFailure` both
when no entry is stored under the address (the absent value flows into
`decrypt` unchecked, so the spec distinction NotFound versus
DecryptionFailure is not made) and when the stored ciphertext was
encrypted under a different ephemeral key; it returns a signature
envelope only when the stored ciphertext decrypts under the current key,
so garbage plaintext is never silently signed. -/
theorem claim_c5_amended (k a d : String) (ls : LStore) (hk : k ≠ "") :
    (dbGet (kcPref ++ a) ls = none → sign ⟨k⟩ ls a d = .error .decryptionFailure) ∧
    (∀ e, dbGet (kcPref ++ a) ls = some (.enc e) → e.encKey ≠ k →
      sign ⟨k⟩ ls a d = .error .decryptionFailure) ∧
    (∀ e p, dbGet (kcPref ++ a) ls = some (.enc e) → sign ⟨k⟩ ls a d = .ok (.sigObj p) →
      e.encKey = k) := by
  refine ⟨?_, ?_, ?_⟩
  · intro h
    simp [sign, hk, h, decryptItem]
  · intro e h hne
    simp [sign, hk, h, decryptItem, decrypt, hne]
  · intro e p h hok
    by_cases he : e.encKey = k
    · exact he
    · exfalso
      simp [sign, hk, h, decryptItem, decrypt, he] at hok

/-- Witness for the amended C5: absent entry and wrong-key entry. -/
theorem claim_c5_witness :
    ("stretch(p,salt)" : String) ≠ "" ∧
    dbGet (kcPref ++ "a") ([] : LStore) = none ∧
    sign ⟨"stretch(p,salt)"⟩ [] "a" "m" = .error .decryptionFailure ∧
    dbGet (kcPref ++ "a")
      [(dbPref ++ (kcPref ++ "a"), .enc (encrypt "other" (.str "pv")))] =
      some (.enc (encrypt "other" (.str "pv"))) ∧
    sign ⟨"stretch(p,salt)"⟩
      [(dbPref ++ (kcPref ++ "a"), .enc (encrypt "other" (.str "pv")))] "a" "m" =
      .error .decryptionFailure :=
  ⟨by decide, by decide,
    (claim_c5_amended "stretch(p,salt)" "a" "m" [] (by decide)).1 (by decide),
    by decide,
    (claim_c5_amended "stretch(p,salt)" "a" "m"
      [(dbPref ++ (kcPref ++ "a"), .enc (encrypt "other" (.str "pv")))]
      (by decide)).2.1 (encrypt "other" (.str "pv")) (by decide) (by decide)⟩

/-- Counterexample for C5 as stated: with no entry stored under the
address, `sign` while Unlocked does not fail with NotFound — there is no
absence check in the code — it fails with the same DecryptionFailure a
wrong-key decryption produces, conflating the two kinds. -/
theorem claim_c5_counterexample :
    sign ⟨"stretch(p,salt)"⟩ [] "a" "m" = .error .decryptionFailure ∧
    ¬ sign ⟨"stretch(p,salt)"⟩ [] "a" "m" = .error .notFound := by
  refine ⟨rfl, fun h => ?_⟩
  have h2 : (Except.error .decryptionFailure : Except Jerr SignResult) = .error .notFound := by
    rw [← h]; rfl
  exact absurd (Except.error.inj h2) (by decide)

/-! ### Claim C7: lock guard of export and import -/

/-- C7 amended: `export` while Locked fails with its NotUnlocked result
(`undefined`), but `import` has no lock guard at all: invoked while Locked
it goes straight to decryption with the empty key and fails with
`DecryptionFailure`, not NotUnlocked. When decryption succeeds and the
payload is not JSON at all, `JSON.parse` throws; but a well-formed JSON
payload that is not an entry-set object is accepted silently — no
MalformedBlob failure — and writes nothing. -/
theorem claim_c7_amended :
    (∀ ls, dbExport "" ls = none) ∧
    (∀ ls (b : EncBlob), b.bKey ≠ "" →
      dbImport "" ls b = (.error .decryptionFailure, ls)) ∧
    (∀ k ls n, dbImport k ls ⟨k, .nonObj n⟩ = (.ok (), ls)) ∧
    (∀ k ls, dbImport k ls ⟨k, .bad⟩ = (.error .parseError, ls)) := by
  refine ⟨fun _ => rfl, ?_, ?_, ?_⟩
  · intro ls b hb
    simp [dbImport, decryptBlob, hb]
  · intro k ls n
    simp [dbImport, decryptBlob]
  · intro k ls
    simp [dbImport, decryptBlob]

/-- Witness for the amended C7 at concrete blobs. -/
theorem claim_c7_witness :
    (EncBlob.mk "k1" (.obj [])).bKey ≠ "" ∧
    dbImport "" [] ⟨"k1", .obj []⟩ = (.error .decryptionFailure, []) ∧
    dbImport "kk" [] ⟨"kk", .nonObj 7⟩ = (.ok (), []) ∧
    dbImport "kk" [] ⟨"kk", .bad⟩ = (.error .parseError, []) :=
  ⟨by decide,
    claim_c7_amended.2.1 [] ⟨"k1", .obj []⟩ (by decide),
    claim_c7_amended.2.2.1 "kk" [] 7,
    claim_c7_amended.2.2.2 "kk" []⟩

/-- Counterexample for C7 as stated: importing while Locked produces a
DecryptionFailure, not the NotUnlocked failure the claim requires, and a
blob whose payload decrypts to valid JSON that is no entry-set is
imported successfully (no MalformedBlob), writing nothing. -/
theorem claim_c7_counterexample :
    dbImport "" [] (⟨"k1", .obj []⟩ : EncBlob) = (.error .decryptionFailure, []) ∧
    Jerr.decryptionFailure ≠ Jerr.notUnlocked ∧
    dbImport "kk" [] (⟨"kk", .nonObj 7⟩ : EncBlob) = (.ok (), []) :=
  ⟨rfl, by decide, rfl⟩

/-! ### Claim C6: export/import round-trip -/

theorem build_get_acc (l : LStore) (acc : LStore) (k : String)
    (hk : hasKey k l = false) :
    lsGet k (l.foldl (fun a p => lsSet p.1 p.2 a) acc) = lsGet k acc := by
  induction l generalizing acc with
  | nil => simp
  | cons p r ih =>
    cases p with
    | mk k1 w =>
      simp only [hasKey] at hk
      by_cases hp : k1 = k
      · simp [hp] at hk
      · simp only [List.foldl_cons]
        rw [ih _ (by simpa [hp] using hk)]
        exact lsGet_set_ne k1 k w acc hp

theorem build_get (l : LStore) (acc : LStore) (k : String) (v : DbVal)
    (hnd : (l.map Prod.fst).Nodup) (hv : lsGet k l = some v) :
    lsGet k (l.foldl (fun a p => lsSet p.1 p.2 a) acc) = some v := by
  induction l generalizing acc with
  | nil => simp [lsGet] at hv
  | cons p r ih =>
    cases p with
    | mk k1 w =>
      simp only [List.map_cons, List.nodup_cons] at hnd
      simp only [lsGet] at hv
      by_cases hp : k1 = k
      · subst hp
        rw [if_pos rfl] at hv
        obtain rfl : w = v := Option.some.inj hv
        simp only [List.foldl_cons]
        have hnk : hasKey k1 r = false := by
          by_cases h : hasKey k1 r = true
          · exact absurd ((hasKey_iff_mem _ _).mp h) hnd.1
          · simpa using h
        rw [build_get_acc r _ k1 hnk]
        exact lsGet_set_self k1 _ acc
      · rw [if_neg hp] at hv
        simp only [List.foldl_cons]
        exact ih _ hnd.2 hv

theorem lsGet_filter (pred : String × DbVal → Bool) (ls : LStore) (k : String)
    (v : DbVal) (hv : lsGet k ls = some v) (hp : pred (k, v) = true) :
    lsGet k (ls.filter pred) = some v := by
  induction ls with
  | nil => simp [lsGet] at hv
  | cons p r ih =>
    cases p with
    | mk k1 w =>
      simp only [lsGet] at hv
      by_cases hq : k1 = k
      · subst hq
        rw [if_pos rfl] at hv
        obtain rfl : w = v := Option.some.inj hv
        rw [List.filter_cons, if_pos (by simpa using hp)]
        simp [lsGet]
      · rw [if_neg hq] at hv
        rw [List.filter_cons]
        by_cases hpk : pred (k1, w) = true
        · rw [if_pos (by simpa using hpk)]
          simp only [lsGet, if_neg hq]
          exact ih hv
        · rw [if_neg (by simpa using hpk)]
          exact ih hv

/-- C6: for an Unlocked store whose keys are not duplicated, `export()`
followed by `import()` of the returned blob into the emptied namespace
reproduces an entry identical in key and value for every namespace entry
(key containing the `Db` prefix) present at export time. -/
theorem claim_c6 (k : String) (ls : LStore) (b : EncBlob) (hk : k ≠ "")
    (hnd : (ls.map Prod.fst).Nodup) (hb : dbExport k ls = some b)
    (key : String) (v : DbVal) (hv : lsGet key ls = some v)
    (hc : hasSub dbPref.data key.data = true) :
    (dbImport k (dbDeleteAll ls) b).1 = .ok () ∧
    lsGet key (dbImport k (dbDeleteAll ls) b).2 = some v := by
  have hbb : b = ⟨k, .obj (ls.filter (fun p => hasSub dbPref.data p.1.data))⟩ := by
    simp only [dbExport, if_neg hk] at hb
    exact (Option.some.inj hb).symm
  subst hbb
  constructor
  · simp [dbImport, dbDeleteAll, decryptBlob]
  · simp only [dbImport, dbDeleteAll, decryptBlob, if_pos rfl]
    apply build_get
    · have hsub : ((ls.filter (fun p => hasSub dbPref.data p.1.data)).map Prod.fst).Sublist
          (ls.map Prod.fst) := (List.filter_sublist ls).map Prod.fst
      exact hnd.sublist hsub
    · exact lsGet_filter _ ls key v hv (by simpa using hc)

/-- Witness for C6 at a concrete two-entry store. -/
theorem claim_c6_witness :
    ("stretch(p,salt)" : String) ≠ "" ∧
    (([(dbPref ++ "x", DbVal.enc (encrypt "stretch(p,salt)" (.str "s1"))),
      (dbPref ++ "y", DbVal.enc (encrypt "stretch(p,salt)" (.str "s2")))] : LStore).map
        Prod.fst).Nodup ∧
    lsGet (dbPref ++ "x")
      [(dbPref ++ "x", DbVal.enc (encrypt "stretch(p,salt)" (.str "s1"))),
        (dbPref ++ "y", DbVal.enc (encrypt "stretch(p,salt)" (.str "s2")))] =
      some (.enc (encrypt "stretch(p,salt)" (.str "s1"))) ∧
    lsGet (dbPref ++ "x")
      (dbImport "stretch(p,salt)"
        (dbDeleteAll
          [(dbPref ++ "x", DbVal.enc (encrypt "stretch(p,salt)" (.str "s1"))),
            (dbPref ++ "y", DbVal.enc (encrypt "stretch(p,salt)" (.str "s2")))])
        ⟨"stretch(p,salt)",
          .obj ([(dbPref ++ "x", DbVal.enc (encrypt "stretch(p,salt)" (.str "s1"))),
            (dbPref ++ "y",
              DbVal.enc (encrypt "stretch(p,salt)" (.str "s2")))].filter
            (fun p => hasSub dbPref.data p.1.data))⟩).2 =
      some (.enc (encrypt "stretch(p,salt)" (.str "s1"))) :=
  ⟨by decide, by decide, by decide,
    (claim_c6 "stretch(p,salt)"
      [(dbPref ++ "x", DbVal.enc (encrypt "stretch(p,salt)" (.str "s1"))),
        (dbPref ++ "y", DbVal.enc (encrypt "stretch(p,salt)" (.str "s2")))]
      ⟨"stretch(p,salt)",
        .obj ([(dbPref ++ "x", DbVal.enc (encrypt "stretch(p,salt)" (.str "s1"))),
          (dbPref ++ "y",
            DbVal.enc (encrypt "stretch(p,salt)" (.str "s2")))].filter
          (fun p => hasSub dbPref.data p.1.data))⟩
      (by decide) (by decide) rfl (dbPref ++ "x") _ (by decide) (by decide)).2⟩

/-! ### Claim C8: the auto-lock timer on repeated unlock -/

/-- C8 evaluated at the failing trace: `unlock` at t = 0 and again at
t = 20000 ms. The first unlock's 30-second timeout is never cancelled
(the source `unlock` has no `clearTimeout`), so it fires at t = 30000 and
clears the ephemeral key: the container is already Locked at t = 30001,
although the claim requires it to stay Unlocked until t = 50000. The
first conjunct shows it was still Unlocked at t = 29999; the last shows
the firing is exactly the behavior a single unlock at t = 0 exhibits. -/
theorem claim_c8_bug :
    tIsUnlock (runTrace [(0, .unl "p"), (20000, .unl "p")] 29999 tInit) = true ∧
    tIsUnlock (runTrace [(0, .unl "p"), (20000, .unl "p")] 30001 tInit) = false ∧
    30001 < 20000 + 30000 ∧
    tIsUnlock (runTrace [(0, .unl "p")] 30001 tInit) = false :=
  ⟨by decide, by decide, by decide, by decide⟩
